import Mathlib

/-!
Verification of the timetable-optimiser scheduler core.

This file gives a shallow embedding, in Lean 4, of the parts of the
repository that the specification's claims talk about:

* `server/utils.py` — progress derivation over resident history,
* `server/services/posting_allocator.py` — the CP-SAT model: the input
  normalisation (pins, leaves, career progress) and the hard-constraint
  families, modelled as predicates over an abstract solution,
* `server/services/postprocess.py` — the fold that turns solver entries
  into resident-history rows and the cohort statistics,
* `server/main.py` / `server/services/preprocessing.py` — the solve
  endpoint's call into the allocator.

Modelling conventions:

* Python dicts keyed by strings become association lists or lookup
  functions; a dict comprehension `{p["posting_code"]: p for p in postings}`
  (later entries win) becomes `List.reverse` + `List.find?`.
* Month blocks are natural numbers; the code validates months by
  membership in `range(1, 13)`, so values outside `1..12` are rejected the
  same way whether they are negative or too large, and a `Nat` model is
  faithful for every behaviour the claims mention.
* Career-block counters are integers (`Int`), since history rows carry
  arbitrary `career_block` values.
* `str.strip()` is modelled by `pyStrip` (drop ASCII whitespace on both
  ends), and Python truthiness of a string is emptiness.
* A CP-SAT `BoolVar`/`IntVar` assignment is a `Solution`: total functions
  from resident/posting/month to `Bool` (assignment `x`, slack `off`) and
  to `Nat` (run counts).  A constraint family added by the allocator
  becomes a `Prop` over `Solution`; "any returned solution" satisfies the
  conjunction of the families the model adds.
-/

namespace TimetableOptimiser

/-- Whitespace test used by `pyStrip`; mirrors what `str.strip()` removes
for the ASCII inputs this system handles. -/
def isPySpace (c : Char) : Bool :=
  c = ' ' ∨ c = '\t' ∨ c = '\n' ∨ c = '\r'

/-- Model of Python `str.strip()`: remove leading and trailing whitespace. -/
def pyStrip (s : String) : String :=
  ⟨((s.data.dropWhile isPySpace).reverse.dropWhile isPySpace).reverse⟩

/-- A posting row of the `postings` input table
(`posting_code, posting_name, posting_type, max_residents,
required_block_duration`). -/
structure Posting where
  posting_code : String
  posting_name : String
  posting_type : String
  max_residents : Int
  required_block_duration : Nat
  deriving DecidableEq, Repr

/-- A resident of the `residents` input table. -/
structure Resident where
  mcr : String
  name : String
  resident_year : Int
  career_blocks_completed : Nat
  deriving DecidableEq, Repr

/-- A resident-history row (`resident_history` input and postprocess
output). -/
structure HistoryRow where
  mcr : String
  year : Int
  month_block : Nat
  career_block : Int
  posting_code : String
  is_current_year : Bool
  is_leave : Bool
  leave_type : String
  deriving DecidableEq, Repr

/-- The twelve month blocks, as in `blocks = list(range(1, 13))`. -/
def monthBlocks : List Nat := [1, 2, 3, 4, 5, 6, 7, 8, 9, 10, 11, 12]

/-- `posting_info = {p["posting_code"]: p for p in postings}`: lookup with
the last binding winning, as in a Python dict comprehension. -/
def posting_info (postings : List Posting) (code : String) : Option Posting :=
  postings.reverse.find? (fun p => p.posting_code == code)

/-- `posting_codes = list(posting_info.keys())` — the distinct posting
codes of the table. -/
def postingCodes (postings : List Posting) : List String :=
  (postings.map (·.posting_code)).dedup

/-- `CORE_REQUIREMENTS` from `server/utils.py`. -/
def CORE_REQUIREMENTS : List (String × Nat) :=
  [("GM", 6), ("GRM", 2), ("CVM", 3), ("RCCM", 3), ("MICU", 3), ("ED", 1), ("NL", 3)]

/-- `CCR_POSTINGS` from `server/utils.py`. -/
def CCR_POSTINGS : List String :=
  ["GM (NUH)", "GM (SGH)", "GM (CGH)", "GM (SKH)"]

/-!
## Progress derivation (`server/utils.py`)

`parse_resident_history` builds a dict of dicts by one increment per
non-leave history row; we model the resulting nested dict as the function
`historyMapF` built by the same left fold (a dict entry update is a
function update), and separately characterise it as a filtered count.
-/

/-- The fold of `parse_resident_history`: start from the empty table and,
for each non-leave row, increment the count of `(row.mcr, row.posting_code)`. -/
def historyMapF (resident_history : List HistoryRow) : String → String → Nat :=
  resident_history.foldl
    (fun acc h =>
      if h.is_leave then acc
      else fun m c =>
        if m = h.mcr ∧ c = h.posting_code then acc m c + 1 else acc m c)
    (fun _ _ => 0)

/-- Specification view of the history map: the number of non-leave rows of
resident `m` naming posting `c`. -/
def historyCount (resident_history : List HistoryRow) (m c : String) : Nat :=
  (resident_history.filter
    (fun h => !h.is_leave && h.mcr == m && h.posting_code == c)).length

/-- `is_unique_posting_completed(posting_code, blocks_completed, posting_info)`:
`blocks_completed >= required_block_duration` when the posting is in the
table, `False` otherwise. -/
def is_unique_posting_completed (posting_code : String) (blocks_completed : Nat)
    (postings : List Posting) : Bool :=
  match posting_info postings posting_code with
  | some p => decide (p.required_block_duration ≤ blocks_completed)
  | none => false

/-- Membership in `get_completed_postings(resident_history, posting_info)[m]`:
the codes that have a key in `parse_resident_history`'s map for `m` (at
least one counted row) and pass `is_unique_posting_completed`. -/
def get_completed_postings (resident_history : List HistoryRow)
    (postings : List Posting) (m c : String) : Bool :=
  decide (1 ≤ historyMapF resident_history m c) &&
    is_unique_posting_completed c (historyMapF resident_history m c) postings

/-- Membership in the completed-postings set as the specification words it:
"codes whose block count **equals** required run length, leave rows
excluded". -/
def completed_postings_spec (resident_history : List HistoryRow)
    (postings : List Posting) (m c : String) : Bool :=
  decide (1 ≤ historyCount resident_history m c) &&
    match posting_info postings c with
    | some p => decide (historyCount resident_history m c = p.required_block_duration)
    | none => false

/-- The incremental dict of `parse_resident_history` counts exactly the
non-leave rows per `(resident, posting)` pair. -/
theorem historyMapF_eq_historyCount (resident_history : List HistoryRow)
    (m c : String) :
    historyMapF resident_history m c = historyCount resident_history m c := by
  suffices h : ∀ (l : List HistoryRow) (acc : String → String → Nat),
      l.foldl
        (fun acc h =>
          if h.is_leave then acc
          else fun m c =>
            if m = h.mcr ∧ c = h.posting_code then acc m c + 1 else acc m c)
        acc m c = acc m c + historyCount l m c by
    simpa [historyMapF] using h resident_history (fun _ _ => 0)
  intro l
  induction l with
  | nil => intro acc; simp [historyCount]
  | cons hd tl ih =>
    intro acc
    by_cases hleave : hd.is_leave
    · simp [List.foldl_cons, hleave, ih, historyCount, List.filter_cons]
    · by_cases hmatch : m = hd.mcr ∧ c = hd.posting_code
      · simp only [List.foldl_cons, hleave, if_false, ih]
        simp [historyCount, List.filter_cons, hleave, hmatch.1, hmatch.2]
        omega
      · simp only [List.foldl_cons, hleave, if_false, ih]
        have : ¬(hd.mcr == m && hd.posting_code == c) = true := by
          simp only [Bool.and_eq_true, beq_iff_eq]
          intro ⟨h1, h2⟩
          exact hmatch ⟨h1.symm, h2.symm⟩
        simp [historyCount, List.filter_cons, hleave, hmatch, this]

/-- A two-block history for one resident on a one-block elective: the code's
completion test (`>=`) and the specification's (`==`) disagree here. -/
def c3History : List HistoryRow :=
  [{ mcr := "R1", year := 2, month_block := 1, career_block := 13,
     posting_code := "Rehab (TTSH)", is_current_year := false,
     is_leave := false, leave_type := "" },
   { mcr := "R1", year := 2, month_block := 2, career_block := 14,
     posting_code := "Rehab (TTSH)", is_current_year := false,
     is_leave := false, leave_type := "" }]

/-- The posting table for the `c3History` scenario. -/
def c3Postings : List Posting :=
  [{ posting_code := "Rehab (TTSH)", posting_name := "Rehab",
     posting_type := "elective", max_residents := 3,
     required_block_duration := 1 }]

/-- C3 counterexample: with two counted blocks on a posting whose required
run length is 1, `get_completed_postings` includes the code (the code tests
`blocks_completed >= required`), while the claim's "block count equals
required run length" excludes it. -/
theorem c3_counterexample :
    get_completed_postings c3History c3Postings "R1" "Rehab (TTSH)" = true ∧
      completed_postings_spec c3History c3Postings "R1" "Rehab (TTSH)" = false ∧
      historyCount c3History "R1" "Rehab (TTSH)" = 2 := by
  refine ⟨by decide, by decide, by decide⟩

/-- C3 (amended): `get_completed_postings` returns, per resident, exactly
the codes with at least one counted (non-leave) history row whose count is
**at least** the posting's required run length; unknown codes are never
completed. -/
theorem c3_completed_postings_characterisation (resident_history : List HistoryRow)
    (postings : List Posting) (m c : String) :
    get_completed_postings resident_history postings m c = true ↔
      1 ≤ historyCount resident_history m c ∧
        ∃ p, posting_info postings c = some p ∧
          p.required_block_duration ≤ historyCount resident_history m c := by
  unfold get_completed_postings is_unique_posting_completed
  rw [historyMapF_eq_historyCount]
  cases h : posting_info postings c with
  | none => simp [h]
  | some p => simp [h]

/-- C3 amended-claim witness at a concrete history. -/
theorem c3_witness :
    1 ≤ historyCount c3History "R1" "Rehab (TTSH)" ∧
      ∃ p, posting_info c3Postings "Rehab (TTSH)" = some p ∧
        p.required_block_duration ≤ historyCount c3History "R1" "Rehab (TTSH)" :=
  (c3_completed_postings_characterisation c3History c3Postings "R1" "Rehab (TTSH)").mp
    (by decide)

/-!
## Career stage derivation (`allocate_timetable`, step 10)
-/

/-- `stage_from_blocks` from `allocate_timetable`. -/
def stage_from_blocks (blocks_completed : Nat) : Nat :=
  if blocks_completed < 12 then 1
  else if blocks_completed < 24 then 2
  else 3

/-- The loop that fills `stages_by_block`: walk the blocks with a running
`progress_counter` that starts at the completed-blocks count and increments
once per block. -/
def buildStages : Nat → List Nat → List (Nat × Nat)
  | _, [] => []
  | counter, b :: bs => (b, stage_from_blocks counter) :: buildStages (counter + 1) bs

/-- `stages_by_block` for a resident with `completed_blocks` career blocks. -/
def stagesByBlock (completed_blocks : Nat) : List (Nat × Nat) :=
  buildStages completed_blocks monthBlocks

/-- `stages_by_block.get(b)`. -/
def stageAt (completed_blocks b : Nat) : Option Nat :=
  (stagesByBlock completed_blocks).lookup b

/-- C8: the stage thresholds are `<12 → 1`, `<24 → 2`, `≥24 → 3`, and the
per-month stage table produced by the running counter assigns month `b` the
stage of `c + b - 1` completed blocks. -/
theorem c8_career_stage (c : Nat) :
    (stage_from_blocks c = 1 ↔ c < 12) ∧
      (stage_from_blocks c = 2 ↔ 12 ≤ c ∧ c < 24) ∧
      (stage_from_blocks c = 3 ↔ 24 ≤ c) ∧
      ∀ b ∈ monthBlocks, stageAt c b = some (stage_from_blocks (c + b - 1)) := by
  refine ⟨?_, ?_, ?_, ?_⟩
  · unfold stage_from_blocks
    split
    · omega
    · split <;> omega
  · unfold stage_from_blocks
    split
    · omega
    · split <;> omega
  · unfold stage_from_blocks
    split
    · omega
    · split <;> omega
  · intro b hb
    fin_cases hb <;>
      · simp only [stageAt, stagesByBlock, monthBlocks, buildStages, List.lookup]
        norm_num
        try (first | rfl | (congr 1; omega))

/-- C8 witness: a resident with 13 completed blocks is stage 2, and month 5
uses the stage of `13 + 5 - 1 = 17` blocks. -/
theorem c8_witness :
    stageAt 13 5 = some (stage_from_blocks (13 + 5 - 1)) :=
  (c8_career_stage 13).2.2.2 5 (by decide)

/-!
## The CP model (`allocate_timetable`)

A CP-SAT assignment is a `Solution`; each hard-constraint family the
allocator adds becomes a `Prop` over it.  A "returned solution" satisfies
every family the model adds.
-/

/-- A row of the `resident_leaves` input. -/
structure LeaveRow where
  mcr : String
  month_block : Nat
  leave_type : String
  posting_code : String
  deriving DecidableEq, Repr

/-- A leave row survives the parse loop in step 9 of `allocate_timetable`
when its stripped `mcr` is nonempty and its block is in `1..12`. -/
def validLeaveRow (row : LeaveRow) : Bool :=
  pyStrip row.mcr != "" && monthBlocks.contains row.month_block

/-- The leave's posting code after validation: stripped, and blanked when
it is not a key of `posting_info`. -/
def leaveCodeNorm (postings : List Posting) (row : LeaveRow) : String :=
  let c := pyStrip row.posting_code
  if c = "" then c
  else if (posting_info postings c).isSome then c
  else ""

/-- `(m, b) ∈ leave_map`: some surviving leave row names resident `m`
(stripped) at block `b`. -/
def leaveAt (resident_leaves : List LeaveRow) (m : String) (b : Nat) : Bool :=
  resident_leaves.any
    (fun row => validLeaveRow row && pyStrip row.mcr == m && row.month_block == b)

/-- `leave_quota_usage[p][b]`: one unit per surviving leave row whose
validated posting code is (nonempty and) `p` at block `b`. -/
def leaveQuota (postings : List Posting) (resident_leaves : List LeaveRow)
    (p : String) (b : Nat) : Nat :=
  (resident_leaves.filter
    (fun row => validLeaveRow row && row.month_block == b &&
      leaveCodeNorm postings row != "" && leaveCodeNorm postings row == p)).length

/-- The per-block bound of Hard Constraint 2: `max_residents - reserved`,
capped below at 0 as in the `available_capacity < 0` branch. -/
def availableCapacity (postings : List Posting) (resident_leaves : List LeaveRow)
    (p : String) (b : Nat) : Int :=
  match posting_info postings p with
  | some meta =>
    if meta.max_residents - (leaveQuota postings resident_leaves p b : Int) < 0 then 0
    else meta.max_residents - (leaveQuota postings resident_leaves p b : Int)
  | none => 0

/-- A value assignment for the model's decision variables: block-wise
Booleans `x`, the per-block `OFF` slacks, and the per-posting run counts. -/
structure Solution where
  x : String → String → Nat → Bool
  off : String → Nat → Bool
  run_count : String → String → Nat

/-- `∑_p x[r][p][b]` over the posting codes of the table. -/
def assignedCount (postings : List Posting) (s : Solution) (m : String) (b : Nat) : Nat :=
  ((postingCodes postings).map (fun p => if s.x m p b then 1 else 0)).sum

/-- Hard Constraint 1 (`AddExactlyOne` over the postings plus the `OFF`
slack): for 0/1 variables, exactly-one is the sum being 1. -/
abbrev exactlyOneSlotConstraint (residents : List Resident) (postings : List Posting)
    (s : Solution) : Prop :=
  ∀ r ∈ residents, ∀ b ∈ monthBlocks,
    assignedCount postings s r.mcr b + (if s.off r.mcr b then 1 else 0) = 1

/-- The leave hard constraint: every declared leave block of a resident
forces that resident's `OFF` slack. -/
abbrev leaveForcesOffConstraint (residents : List Resident)
    (resident_leaves : List LeaveRow) (s : Solution) : Prop :=
  ∀ r ∈ residents, ∀ b ∈ monthBlocks, leaveAt resident_leaves r.mcr b = true →
    s.off r.mcr b = true

/-- `∑_r x[r][p][b]` over the residents. -/
def residentFill (residents : List Resident) (s : Solution) (p : String) (b : Nat) : Nat :=
  (residents.map (fun r => if s.x r.mcr p b then 1 else 0)).sum

/-- Hard Constraint 2: per posting and block, the resident fill is bounded
by the leave-reduced capacity. -/
abbrev capacityConstraint (residents : List Resident) (postings : List Posting)
    (resident_leaves : List LeaveRow) (s : Solution) : Prop :=
  ∀ p ∈ postingCodes postings, ∀ b ∈ monthBlocks,
    (residentFill residents s p b : Int) ≤ availableCapacity postings resident_leaves p b

/-- An indicator sum over a list is zero exactly when no listed element is
set. -/
theorem indicator_sum_eq_zero {α : Type} (l : List α) (f : α → Bool)
    (h : (l.map (fun a => if f a then (1 : Nat) else 0)).sum = 0) :
    ∀ a ∈ l, f a = false := by
  induction l with
  | nil => intro a ha; cases ha
  | cons hd tl ih =>
    intro a ha
    simp only [List.map_cons, List.sum_cons] at h
    rcases List.mem_cons.mp ha with rfl | hmem
    · cases hfa : f a
      · rfl
      · simp [hfa] at h
    · exact ih (by omega) a hmem

/-- An indicator sum over a list is one exactly when a unique listed
element is set. -/
theorem indicator_sum_eq_one {α : Type} (l : List α) (f : α → Bool)
    (h : (l.map (fun a => if f a then (1 : Nat) else 0)).sum = 1) :
    ∃ p ∈ l, f p = true ∧ ∀ q ∈ l, f q = true → q = p := by
  induction l with
  | nil => simp at h
  | cons hd tl ih =>
    simp only [List.map_cons, List.sum_cons] at h
    cases hfa : f hd
    · rw [hfa] at h
      simp only [Bool.false_eq_true, if_false, Nat.zero_add] at h
      obtain ⟨p, hp, hfp, huniq⟩ := ih h
      refine ⟨p, List.mem_cons_of_mem _ hp, hfp, ?_⟩
      intro q hq hfq
      rcases List.mem_cons.mp hq with rfl | hqt
      · rw [hfa] at hfq; cases hfq
      · exact huniq q hqt hfq
    · rw [hfa] at h
      simp only [if_true] at h
      have htl : (tl.map (fun a => if f a then (1 : Nat) else 0)).sum = 0 := by omega
      have hall := indicator_sum_eq_zero tl f htl
      refine ⟨hd, List.mem_cons_self _ _, hfa, ?_⟩
      intro q hq hfq
      rcases List.mem_cons.mp hq with rfl | hqt
      · rfl
      · rw [hall q hqt] at hfq; cases hfq

/-- Exactly one of three alternatives holds. -/
def ExactlyOneOf3 (a b c : Prop) : Prop :=
  (a ∧ ¬b ∧ ¬c) ∨ (¬a ∧ b ∧ ¬c) ∨ (¬a ∧ ¬b ∧ c)

/-- Resident `m` is assigned to exactly one posting at block `b` (and is
not `OFF`). -/
def assignedExactlyOne (postings : List Posting) (s : Solution) (m : String) (b : Nat) : Prop :=
  s.off m b = false ∧
    ∃ p ∈ postingCodes postings, s.x m p b = true ∧
      ∀ q ∈ postingCodes postings, s.x m q b = true → q = p

/-- C1: in any solution of Hard Constraint 1 plus the leave constraint,
`∑_p x[r][p][b] + off[r][b] = 1`; a declared leave forces the off slot;
and each resident-month is in exactly one of the three states: assigned to
exactly one posting, off without leave, or on declared leave. -/
theorem c1_one_slot_per_month (residents : List Resident) (postings : List Posting)
    (resident_leaves : List LeaveRow) (s : Solution) (r : Resident) (b : Nat)
    (hr : r ∈ residents) (hb : b ∈ monthBlocks)
    (hone : exactlyOneSlotConstraint residents postings s)
    (hleave : leaveForcesOffConstraint residents resident_leaves s) :
    assignedCount postings s r.mcr b + (if s.off r.mcr b then 1 else 0) = 1 ∧
      (leaveAt resident_leaves r.mcr b = true → s.off r.mcr b = true) ∧
      ExactlyOneOf3
        (assignedExactlyOne postings s r.mcr b)
        (s.off r.mcr b = true ∧ leaveAt resident_leaves r.mcr b = false)
        (leaveAt resident_leaves r.mcr b = true) := by
  have hsum := hone r hr b hb
  refine ⟨hsum, hleave r hr b hb, ?_⟩
  unfold ExactlyOneOf3
  rcases Bool.eq_false_or_eq_true (s.off r.mcr b) with hoff | hoff
  · -- OFF: no posting is assigned; split on whether a leave is declared
    have hzero : assignedCount postings s r.mcr b = 0 := by
      rw [hoff] at hsum
      simp only [if_true] at hsum
      omega
    have hnone := indicator_sum_eq_zero _ _ hzero
    have hnota : ¬ assignedExactlyOne postings s r.mcr b := by
      intro hcontra
      have hcontra1 := hcontra.1
      rw [hoff] at hcontra1
      cases hcontra1
    rcases Bool.eq_false_or_eq_true (leaveAt resident_leaves r.mcr b) with hl | hl
    · exact Or.inr (Or.inr ⟨hnota, by simp [hl], hl⟩)
    · exact Or.inr (Or.inl ⟨hnota, ⟨hoff, hl⟩, by simp [hl]⟩)
  · -- not OFF: the posting indicators sum to 1, so a unique posting is chosen
    have hone' : assignedCount postings s r.mcr b = 1 := by
      rw [hoff] at hsum; simpa using hsum
    have hassigned := indicator_sum_eq_one _ _ hone'
    have hnl : leaveAt resident_leaves r.mcr b = false := by
      rcases Bool.eq_false_or_eq_true (leaveAt resident_leaves r.mcr b) with hl | hl
      · rw [hleave r hr b hb hl] at hoff; cases hoff
      · exact hl
    exact Or.inl ⟨⟨hoff, hassigned⟩, by simp [hoff], by simp [hnl]⟩

/-- C9: the enforced capacity bound is exactly
`max(0, max_residents − leave reservations)`, hence never negative, and a
posting whose reservations reach its capacity admits no assignment at that
block in any solution of Hard Constraint 2. -/
theorem c9_capacity_bound (residents : List Resident) (postings : List Posting)
    (resident_leaves : List LeaveRow) (s : Solution) (p : String) (meta : Posting)
    (b : Nat) (hp : posting_info postings p = some meta)
    (hmem : p ∈ postingCodes postings) (hb : b ∈ monthBlocks) :
    availableCapacity postings resident_leaves p b =
        max 0 (meta.max_residents - (leaveQuota postings resident_leaves p b : Int)) ∧
      0 ≤ availableCapacity postings resident_leaves p b ∧
      (capacityConstraint residents postings resident_leaves s →
        meta.max_residents ≤ (leaveQuota postings resident_leaves p b : Int) →
        ∀ r ∈ residents, s.x r.mcr p b = false) := by
  have hcapeq : availableCapacity postings resident_leaves p b =
      max 0 (meta.max_residents - (leaveQuota postings resident_leaves p b : Int)) := by
    unfold availableCapacity
    simp only [hp]
    rw [max_def]
    split
    · split <;> omega
    · split <;> omega
  refine ⟨hcapeq, ?_, ?_⟩
  · rw [hcapeq]; exact le_max_left _ _
  · intro hcap hres
    have hbound := hcap p hmem b hb
    have hzero : availableCapacity postings resident_leaves p b = 0 := by
      rw [hcapeq]
      rw [max_eq_left (by omega)]
    rw [hzero] at hbound
    have hfill : residentFill residents s p b = 0 := by omega
    intro r hr
    exact indicator_sum_eq_zero _ _ hfill r hr

/-- One-resident, one-posting scenario with a declared leave at block 2. -/
def w1Resident : Resident :=
  { mcr := "R1", name := "Alice", resident_year := 1, career_blocks_completed := 0 }

/-- Posting table for the C1 witness scenario. -/
def w1Postings : List Posting :=
  [{ posting_code := "GM (TTSH)", posting_name := "GM", posting_type := "core",
     max_residents := 2, required_block_duration := 1 }]

/-- Leave table for the C1 witness scenario. -/
def w1Leaves : List LeaveRow :=
  [{ mcr := "R1", month_block := 2, leave_type := "AL", posting_code := "" }]

/-- A solution of the C1 witness scenario: assigned to the posting in every
month except the leave month, which is off. -/
def w1Solution : Solution :=
  { x := fun m p b => m == "R1" && p == "GM (TTSH)" && b != 2 && monthBlocks.contains b
    off := fun m b => m == "R1" && b == 2
    run_count := fun m p => if m == "R1" && p == "GM (TTSH)" then 11 else 0 }

/-- C1 witness: the trichotomy at the leave month of the concrete scenario. -/
theorem c1_witness :
    assignedCount w1Postings w1Solution "R1" 2 +
        (if w1Solution.off "R1" 2 then 1 else 0) = 1 ∧
      (leaveAt w1Leaves "R1" 2 = true → w1Solution.off "R1" 2 = true) ∧
      ExactlyOneOf3
        (assignedExactlyOne w1Postings w1Solution "R1" 2)
        (w1Solution.off "R1" 2 = true ∧ leaveAt w1Leaves "R1" 2 = false)
        (leaveAt w1Leaves "R1" 2 = true) :=
  c1_one_slot_per_month [w1Resident] w1Postings w1Leaves w1Solution w1Resident 2
    (by decide) (by decide) (by decide) (by decide)

/-- Posting for the C9 witness scenario: capacity 1, fully reserved by a
leave. -/
def w9Posting : Posting :=
  { posting_code := "NL (TTSH)", posting_name := "NL", posting_type := "core",
    max_residents := 1, required_block_duration := 3 }

/-- Posting table for the C9 witness scenario. -/
def w9Postings : List Posting := [w9Posting]

/-- The resident of the C9 witness scenario. -/
def w9Resident : Resident :=
  { mcr := "R2", name := "Bob", resident_year := 2, career_blocks_completed := 12 }

/-- Residents for the C9 witness scenario. -/
def w9Residents : List Resident := [w9Resident]

/-- One leave at block 4 naming the posting, consuming its whole capacity. -/
def w9Leaves : List LeaveRow :=
  [{ mcr := "R2", month_block := 4, leave_type := "ML", posting_code := "NL (TTSH)" }]

/-- The everywhere-off solution of the C9 witness scenario. -/
def w9Solution : Solution :=
  { x := fun _ _ _ => false, off := fun _ _ => true, run_count := fun _ _ => 0 }

/-- C9 witness: with the capacity fully reserved by the leave, no resident
is assigned to the posting at that block. -/
theorem c9_witness :
    w9Solution.x "R2" "NL (TTSH)" 4 = false :=
  (c9_capacity_bound w9Residents w9Postings w9Leaves w9Solution "NL (TTSH)" w9Posting 4
      (by decide) (by decide) (by decide)).2.2 (by decide) (by decide) w9Resident
    (by decide)

/-!
## CCR rule (Hard Constraint 4) and its inputs

The allocator first strips current-year pin rows out of the history
(step 6) and derives posting progress from what is left (step 7); the CCR
constraints then consult that progress and the per-month stages.
-/

/-- Modelled from the spec: `_normalize_block` is imported by the
allocator but absent from the sources here; per the spec's data model a
month value is valid exactly when it lies in `1..12`, so normalisation
yields the month when valid and nothing otherwise. -/
def normalize_block (b : Nat) : Option Nat :=
  if monthBlocks.contains b then some b else none

/-- Modelled from the spec: `_truthy` is imported by the allocator but
absent from the sources here; it reads a raw flag as a Boolean, which on
our already-Boolean row fields is the identity. -/
def truthy (b : Bool) : Bool := b

/-- A history row that step 6 of `allocate_timetable` converts into a pin
(and drops from the filtered history): current-year, non-leave, with a
nonempty resident id, a normalisable month and a nonempty posting code. -/
def isPinRow (row : HistoryRow) : Bool :=
  truthy row.is_current_year && !truthy row.is_leave && pyStrip row.mcr != "" &&
    (normalize_block row.month_block).isSome && pyStrip row.posting_code != ""

/-- `filtered_resident_history`: the history with pin-like current-year
rows removed. -/
def filtered_resident_history (resident_history : List HistoryRow) : List HistoryRow :=
  resident_history.filter (fun row => !isPinRow row)

/-- `get_posting_progress(...)[m].get(c, {}).get("is_completed", False)`:
a code appearing in the counted history is completed when its count
reaches the required duration; absent codes (or codes outside the posting
table) are not completed. -/
def progress_is_completed (resident_history : List HistoryRow)
    (postings : List Posting) (m c : String) : Bool :=
  decide (1 ≤ historyCount resident_history m c) &&
    is_unique_posting_completed c (historyCount resident_history m c) postings

/-- `done_ccr`: some CCR posting is completed in the progress derived from
the pin-filtered history. -/
def doneCcr (resident_history : List HistoryRow) (postings : List Posting)
    (m : String) : Bool :=
  CCR_POSTINGS.any
    (fun p => progress_is_completed (filtered_resident_history resident_history) postings m p)

/-- `offered = [p for p in CCR_POSTINGS if p in posting_codes]`. -/
def offeredCcr (postings : List Posting) : List String :=
  CCR_POSTINGS.filter (fun p => (postingCodes postings).contains p)

/-- The resident's months whose stage is 1. -/
def stage1Blocks (completed_blocks : Nat) : List Nat :=
  monthBlocks.filter (fun b => stageAt completed_blocks b == some 1)

/-- The resident's months whose stage is at least 2
(`stages_by_block.get(b, 0) >= 2`). -/
def stage2PlusBlocks (completed_blocks : Nat) : List Nat :=
  monthBlocks.filter
    (fun b =>
      match stageAt completed_blocks b with
      | some v => decide (2 ≤ v)
      | none => false)

/-- `posting_info[p]["required_block_duration"]` for a code of the table. -/
def requiredDuration (postings : List Posting) (p : String) : Nat :=
  match posting_info postings p with
  | some meta => meta.required_block_duration
  | none => 0

/-- Hard Constraint 4: CCR postings are banned in stage-1 months; a
resident who is done with CCR, or never reaches stage 2, gets zero CCR
runs; anyone else gets exactly one CCR run across the offered CCR codes. -/
abbrev ccrConstraints (residents : List Resident) (resident_history : List HistoryRow)
    (postings : List Posting) (s : Solution) : Prop :=
  ∀ r ∈ residents,
    (∀ b ∈ stage1Blocks r.career_blocks_completed, ∀ p ∈ offeredCcr postings,
      s.x r.mcr p b = false) ∧
    ((doneCcr resident_history postings r.mcr = true ∨
        stage2PlusBlocks r.career_blocks_completed = []) →
      ∀ p ∈ offeredCcr postings, s.run_count r.mcr p = 0) ∧
    (¬(doneCcr resident_history postings r.mcr = true ∨
        stage2PlusBlocks r.career_blocks_completed = []) →
      ((offeredCcr postings).map (fun p => s.run_count r.mcr p)).sum = 1)

/-- The run-count linking constraint:
`∑_b x[r][p][b] = count[r][p] * required_duration[p]`. -/
abbrev runCountLinkConstraint (residents : List Resident) (postings : List Posting)
    (s : Solution) : Prop :=
  ∀ r ∈ residents, ∀ p ∈ postingCodes postings,
    (monthBlocks.map (fun b => if s.x r.mcr p b then 1 else 0)).sum =
      s.run_count r.mcr p * requiredDuration postings p

/-- C2: in any solution of the CCR and linking constraints, a resident has
no offered CCR posting in a stage-1 month; a resident who completed a CCR
historically or never reaches stage 2 has zero CCR runs (and no CCR
assignment in any month); any other resident has exactly one CCR run
summed across the offered CCR codes. -/
theorem c2_ccr_rule (residents : List Resident) (resident_history : List HistoryRow)
    (postings : List Posting) (s : Solution) (r : Resident) (hr : r ∈ residents)
    (hccr : ccrConstraints residents resident_history postings s)
    (hlink : runCountLinkConstraint residents postings s) :
    (∀ b ∈ monthBlocks, stageAt r.career_blocks_completed b = some 1 →
      ∀ p ∈ offeredCcr postings, s.x r.mcr p b = false) ∧
    ((doneCcr resident_history postings r.mcr = true ∨
        stage2PlusBlocks r.career_blocks_completed = []) →
      ∀ p ∈ offeredCcr postings, s.run_count r.mcr p = 0 ∧
        ∀ b ∈ monthBlocks, s.x r.mcr p b = false) ∧
    ((doneCcr resident_history postings r.mcr = false ∧
        stage2PlusBlocks r.career_blocks_completed ≠ []) →
      ((offeredCcr postings).map (fun p => s.run_count r.mcr p)).sum = 1) := by
  obtain ⟨h1, h2, h3⟩ := hccr r hr
  refine ⟨?_, ?_, ?_⟩
  · intro b hb hstage p hp
    exact h1 b (List.mem_filter.mpr ⟨hb, by simp [hstage]⟩) p hp
  · intro hcond p hp
    have hcount := h2 hcond p hp
    refine ⟨hcount, ?_⟩
    have hpc : p ∈ postingCodes postings := by
      have := List.mem_filter.mp hp
      simpa using this.2
    have hlinked := hlink r hr p hpc
    rw [hcount, Nat.zero_mul] at hlinked
    exact indicator_sum_eq_zero _ _ hlinked
  · intro ⟨hdone, hstage2⟩
    apply h3
    rintro (hA | hB)
    · rw [hdone] at hA; cases hA
    · exact hstage2 hB

/-- Resident for the C2 witness scenario: 12 career blocks, so every month
is stage 2 and a CCR run is due. -/
def w2Resident : Resident :=
  { mcr := "R3", name := "Carol", resident_year := 2, career_blocks_completed := 12 }

/-- Posting table for the C2 witness scenario: one offered CCR posting. -/
def w2Postings : List Posting :=
  [{ posting_code := "GM (NUH)", posting_name := "GM", posting_type := "core",
     max_residents := 1, required_block_duration := 1 }]

/-- Solution for the C2 witness scenario: the single CCR run sits at
block 1. -/
def w2Solution : Solution :=
  { x := fun m p b => m == "R3" && p == "GM (NUH)" && b == 1
    off := fun m b => m == "R3" && b != 1
    run_count := fun m p => if m == "R3" && p == "GM (NUH)" then 1 else 0 }

/-- C2 witness: the stage-2 resident with no CCR history gets exactly one
CCR run. -/
theorem c2_witness :
    ((offeredCcr w2Postings).map (fun p => w2Solution.run_count "R3" p)).sum = 1 :=
  (c2_ccr_rule [w2Resident] [] w2Postings w2Solution w2Resident
      (by decide) (by decide) (by decide)).2.2 (by decide)

/-!
## Pinned assignments (steps 6 and "APPLY PINNED ASSIGNMENTS")

`pins_by_resident` is a dict of dicts keyed by `(mcr, block)`; we model it
as a list of `(mcr, block, posting)` triples where recording a pin
replaces any previous entry with the same `(mcr, block)` key — the dict's
last-write-wins update.
-/

/-- An element of a `pinned_assignments[mcr]` list. -/
structure PinEntry where
  month_block : Nat
  posting_code : String
  deriving DecidableEq, Repr

/-- Dict update for the pin map: drop any previous `(mcr, block)` entry
and append the new binding. -/
def pinUpdate (pm : List (String × Nat × String)) (m : String) (b : Nat)
    (p : String) : List (String × Nat × String) :=
  pm.filter (fun e => !(e.1 == m && e.2.1 == b)) ++ [(m, b, p)]

/-- `_record_pin`: refuse empty residents, unknown postings and invalid
blocks; otherwise store the pin under `(mcr, block)`. -/
def record_pin (postings : List Posting) (pm : List (String × Nat × String))
    (mcr : String) (b : Nat) (p : String) : List (String × Nat × String) :=
  if mcr == "" || (posting_info postings p).isNone || !(monthBlocks.contains b) then pm
  else pinUpdate pm mcr b p

/-- One iteration of the explicit `pinned_assignments` merge loop:
normalise the block, strip the posting, skip empty or unknown data, then
record. -/
def explicitPinStep (postings : List Posting) (mcr : String)
    (acc : List (String × Nat × String)) (e : PinEntry) : List (String × Nat × String) :=
  match normalize_block e.month_block with
  | none => acc
  | some b =>
    if pyStrip e.posting_code == "" then acc
    else if (posting_info postings (pyStrip e.posting_code)).isNone ||
        !(monthBlocks.contains b) then acc
    else record_pin postings acc mcr b (pyStrip e.posting_code)

/-- The explicit `pinned_assignments` merge: fold the per-resident entry
lists. -/
def recordExplicitPins (postings : List Posting)
    (pinned_assignments : List (String × List PinEntry))
    (pm0 : List (String × Nat × String)) : List (String × Nat × String) :=
  pinned_assignments.foldl
    (fun acc entry => entry.2.foldl (explicitPinStep postings entry.1) acc) pm0

/-- One iteration of the history merge loop: pin-like current-year rows
with a known posting and valid block are recorded; others are skipped
(with a warning). -/
def historyPinStep (postings : List Posting) (acc : List (String × Nat × String))
    (row : HistoryRow) : List (String × Nat × String) :=
  if isPinRow row then
    if (posting_info postings (pyStrip row.posting_code)).isNone ||
        !(monthBlocks.contains row.month_block) then acc
    else record_pin postings acc (pyStrip row.mcr) row.month_block
      (pyStrip row.posting_code)
  else acc

/-- The history-derived pin merge. -/
def recordHistoryPins (postings : List Posting) (resident_history : List HistoryRow)
    (pm0 : List (String × Nat × String)) : List (String × Nat × String) :=
  resident_history.foldl (historyPinStep postings) pm0

/-- `pins_by_resident` after both merge passes (explicit pins first, then
current-year history rows). -/
def allocatorPins (postings : List Posting)
    (pinned_assignments : List (String × List PinEntry))
    (resident_history : List HistoryRow) : List (String × Nat × String) :=
  recordHistoryPins postings resident_history
    (recordExplicitPins postings pinned_assignments [])

/-- The recorded pin of `(m, b)`, if any. -/
def pinLookup (pm : List (String × Nat × String)) (m : String) (b : Nat) :
    Option String :=
  (pm.find? (fun e => e.1 == m && e.2.1 == b)).map (fun e => e.2.2)

/-- The `x[mcr][posting][block] == 1` constraints the application loop
adds: one per recorded pin whose resident exists in the model (a pin for
an unknown resident raises a `KeyError` that the loop catches and drops). -/
def addedPinConstraints (residents : List Resident) (postings : List Posting)
    (pinned_assignments : List (String × List PinEntry))
    (resident_history : List HistoryRow) : List (String × Nat × String) :=
  (allocatorPins postings pinned_assignments resident_history).filter
    (fun e => decide (e.1 ∈ residents.map (fun r => r.mcr)))

/-- The pin constraint family over solutions. -/
abbrev pinConstraints (residents : List Resident) (postings : List Posting)
    (pinned_assignments : List (String × List PinEntry))
    (resident_history : List HistoryRow) (s : Solution) : Prop :=
  ∀ e ∈ addedPinConstraints residents postings pinned_assignments resident_history,
    s.x e.1 e.2.2 e.2.1 = true

/-- A recordable pin: nonempty resident, posting in the table, block in
`1..12`. -/
def ValidPinEntry (postings : List Posting) (e : String × Nat × String) : Prop :=
  e.1 ≠ "" ∧ (posting_info postings e.2.2).isSome = true ∧ e.2.1 ∈ monthBlocks

/-- Membership after a dict update comes from the old map or is the new
binding. -/
theorem pinUpdate_mem {pm : List (String × Nat × String)} {m : String} {b : Nat}
    {p : String} {e : String × Nat × String} (he : e ∈ pinUpdate pm m b p) :
    e ∈ pm ∨ e = (m, b, p) := by
  unfold pinUpdate at he
  rcases List.mem_append.mp he with h | h
  · exact Or.inl (List.mem_of_mem_filter h)
  · simp only [List.mem_singleton] at h
    exact Or.inr h

/-- `_record_pin` only ever stores valid pins. -/
theorem record_pin_mem {postings : List Posting} {pm : List (String × Nat × String)}
    {mcr : String} {b : Nat} {p : String} {e : String × Nat × String}
    (he : e ∈ record_pin postings pm mcr b p) :
    e ∈ pm ∨ (e = (mcr, b, p) ∧ ValidPinEntry postings e) := by
  unfold record_pin at he
  split at he
  · exact Or.inl he
  · next hcond =>
    rcases pinUpdate_mem he with h | h
    · exact Or.inl h
    · refine Or.inr ⟨h, ?_⟩
      simp only [Bool.or_eq_true, Bool.not_eq_true', beq_iff_eq,
        Option.isNone_iff_eq_none] at hcond
      push_neg at hcond
      obtain ⟨⟨h1, h2⟩, h3⟩ := hcond
      subst h
      refine ⟨h1, ?_, ?_⟩
      · cases hinfo : posting_info postings p
        · exact absurd hinfo h2
        · rfl
      · have : monthBlocks.contains b = true := by
          cases hc : monthBlocks.contains b
          · exact absurd hc h3
          · rfl
        simpa using this

/-- Fold preservation: if every step only adds elements satisfying `P`,
the fold only adds elements satisfying `P`. -/
theorem foldl_pres {α β : Type} (step : List α → β → List α) (P : α → Prop)
    (hstep : ∀ acc x e, e ∈ step acc x → e ∈ acc ∨ P e) :
    ∀ (l : List β) (acc : List α) (e : α), e ∈ l.foldl step acc → e ∈ acc ∨ P e := by
  intro l
  induction l with
  | nil => intro acc e he; exact Or.inl he
  | cons hd tl ih =>
    intro acc e he
    rcases ih (step acc hd) e he with h | h
    · exact hstep acc hd e h
    · exact Or.inr h

/-- Every pin that the merge passes record is valid. -/
theorem allocatorPins_valid (postings : List Posting)
    (pinned_assignments : List (String × List PinEntry))
    (resident_history : List HistoryRow) :
    ∀ e ∈ allocatorPins postings pinned_assignments resident_history,
      ValidPinEntry postings e := by
  have hexp : ∀ mcr acc pe e, e ∈ explicitPinStep postings mcr acc pe →
      e ∈ acc ∨ ValidPinEntry postings e := by
    intro mcr acc pe e he
    unfold explicitPinStep at he
    split at he
    · exact Or.inl he
    · split at he
      · exact Or.inl he
      · split at he
        · exact Or.inl he
        · rcases record_pin_mem he with h | h
          · exact Or.inl h
          · exact Or.inr h.2
  have hhist : ∀ acc row e, e ∈ historyPinStep postings acc row →
      e ∈ acc ∨ ValidPinEntry postings e := by
    intro acc row e he
    unfold historyPinStep at he
    split at he
    · split at he
      · exact Or.inl he
      · rcases record_pin_mem he with h | h
        · exact Or.inl h
        · exact Or.inr h.2
    · exact Or.inl he
  intro e he
  unfold allocatorPins recordHistoryPins at he
  rcases foldl_pres _ _ hhist resident_history _ e he with h | h
  · unfold recordExplicitPins at h
    have houter : ∀ (acc : List (String × Nat × String))
        (entry : String × List PinEntry) (e : String × Nat × String),
        e ∈ entry.2.foldl (explicitPinStep postings entry.1) acc →
        e ∈ acc ∨ ValidPinEntry postings e := by
      intro acc entry e' he'
      exact foldl_pres _ _ (hexp entry.1) entry.2 acc e' he'
    rcases foldl_pres _ _ houter pinned_assignments [] e h with h' | h'
    · cases h'
    · exact h'
  · exact h

/-- A successful pin lookup is a pin of the map. -/
theorem pinLookup_mem {pm : List (String × Nat × String)} {m : String} {b : Nat}
    {p : String} (h : pinLookup pm m b = some p) : (m, b, p) ∈ pm := by
  unfold pinLookup at h
  obtain ⟨e, hfind, hval⟩ := Option.map_eq_some'.mp h
  have hmem := List.mem_of_find?_eq_some hfind
  have hpred := List.find?_some hfind
  simp only [Bool.and_eq_true, beq_iff_eq] at hpred
  obtain ⟨e1, e2, e3⟩ := e
  obtain ⟨h1, h2⟩ := hpred
  dsimp at h1 h2 hval
  subst h1; subst h2; subst hval
  exact hmem

/-- Residents for the C7 scenario. -/
def c7Residents : List Resident :=
  [{ mcr := "R1", name := "Alice", resident_year := 1, career_blocks_completed := 0 }]

/-- Posting table for the C7 scenario: two valid electives. -/
def c7Postings : List Posting :=
  [{ posting_code := "Endo (TTSH)", posting_name := "Endo", posting_type := "elective",
     max_residents := 2, required_block_duration := 1 },
   { posting_code := "Renal (TTSH)", posting_name := "Renal", posting_type := "elective",
     max_residents := 2, required_block_duration := 1 }]

/-- Two pins for the same `(mcr, month)`, both with a known posting and a
valid month. -/
def c7Pinned : List (String × List PinEntry) :=
  [("R1", [{ month_block := 1, posting_code := "Endo (TTSH)" },
           { month_block := 1, posting_code := "Renal (TTSH)" }])]

/-- A solution that satisfies every pin constraint the model actually adds
while leaving the first pin's posting unassigned. -/
def c7Solution : Solution :=
  { x := fun m p b => m == "R1" && p == "Renal (TTSH)" && b == 1
    off := fun m b => m == "R1" && b != 1
    run_count := fun m p => if m == "R1" && p == "Renal (TTSH)" then 1 else 0 }

/-- C7 counterexample: the pin `("R1", 1, "Endo (TTSH)")` names a posting
of the table and a month in `1..12`, yet no `x` constraint is added for it
— a later pin for the same `(mcr, month)` overwrote it — so a solution
satisfying all added pin constraints can leave it unassigned. -/
theorem c7_counterexample :
    (posting_info c7Postings "Endo (TTSH)").isSome = true ∧
      1 ∈ monthBlocks ∧
      ("R1", 1, "Endo (TTSH)") ∉ addedPinConstraints c7Residents c7Postings c7Pinned [] ∧
      ("R1", 1, "Renal (TTSH)") ∈ addedPinConstraints c7Residents c7Postings c7Pinned [] ∧
      pinConstraints c7Residents c7Postings c7Pinned [] c7Solution ∧
      c7Solution.x "R1" "Endo (TTSH)" 1 = false := by
  refine ⟨by decide, by decide, by decide, by decide, by decide, by decide⟩

/-- C7 (amended): the model forces `x[mcr][posting][month] = 1` exactly
for the recorded pins — per `(mcr, month)` the last valid pin wins — of
residents present in the cohort; every other pin (unknown posting, month
outside `1..12`, empty or unknown resident, or overwritten by a later pin
for the same month) is dropped with no constraint, and pin processing is a
total function, so the solve proceeds. -/
theorem c7_pins (residents : List Resident) (postings : List Posting)
    (pinned_assignments : List (String × List PinEntry))
    (resident_history : List HistoryRow) (m : String) (b : Nat) (p : String)
    (hrec : pinLookup (allocatorPins postings pinned_assignments resident_history) m b =
      some p)
    (hres : m ∈ residents.map (fun r => r.mcr)) :
    (m, b, p) ∈ addedPinConstraints residents postings pinned_assignments resident_history ∧
      (∀ s : Solution,
        pinConstraints residents postings pinned_assignments resident_history s →
        s.x m p b = true) ∧
      m ≠ "" ∧ (posting_info postings p).isSome = true ∧ b ∈ monthBlocks ∧
      (∀ e ∈ addedPinConstraints residents postings pinned_assignments resident_history,
        ValidPinEntry postings e ∧ e.1 ∈ residents.map (fun r => r.mcr)) := by
  have hpm := pinLookup_mem hrec
  have hadded : (m, b, p) ∈
      addedPinConstraints residents postings pinned_assignments resident_history := by
    exact List.mem_filter.mpr ⟨hpm, by simpa using hres⟩
  have hvalid := allocatorPins_valid postings pinned_assignments resident_history _ hpm
  refine ⟨hadded, ?_, hvalid.1, hvalid.2.1, hvalid.2.2, ?_⟩
  · intro s hs
    exact hs _ hadded
  · intro e he
    have hmem := List.mem_filter.mp he
    refine ⟨allocatorPins_valid postings pinned_assignments resident_history _ hmem.1, ?_⟩
    simpa using hmem.2

/-- C7 witness: the surviving pin of the duplicate-pin scenario is forced. -/
theorem c7_witness :
    ("R1", 1, "Renal (TTSH)") ∈ addedPinConstraints c7Residents c7Postings c7Pinned [] ∧
      (∀ s : Solution, pinConstraints c7Residents c7Postings c7Pinned [] s →
        s.x "R1" "Renal (TTSH)" 1 = true) ∧
      "R1" ≠ "" ∧ (posting_info c7Postings "Renal (TTSH)").isSome = true ∧
      1 ∈ monthBlocks ∧
      (∀ e ∈ addedPinConstraints c7Residents c7Postings c7Pinned [],
        ValidPinEntry c7Postings e ∧ e.1 ∈ c7Residents.map (fun r => r.mcr)) :=
  c7_pins c7Residents c7Postings c7Pinned [] "R1" 1 "Renal (TTSH)"
    (by decide) (by decide)

/-!
## Post-processing (`compute_postprocess`)

The solver hands `compute_postprocess` one entry per `(resident, month)`
plus the leave map and career progress; the per-entry loop body
(lines 116–150) threads a running career counter and emits one
current-year history row per entry.
-/

/-- One element of `solver_solution["entries"]`. -/
structure SolutionEntry where
  month_block : Nat
  assigned_posting : String
  is_off : Bool
  deriving DecidableEq, Repr

/-- One value of the solver's `leave_map[mcr][b]`. -/
structure LeaveMeta where
  leave_type : String
  posting_code : String
  deriving DecidableEq, Repr

/-- The loop body of `compute_postprocess` for one solver entry: returns
the updated career counter and the emitted history row. -/
def processEntry (leaveMap : String → Nat → Option LeaveMeta) (mcr : String)
    (year : Int) (counter : Int) (e : SolutionEntry) : Int × HistoryRow :=
  let assigned := e.assigned_posting
  let meta := leaveMap mcr e.month_block
  let leave_type := pyStrip (match meta with | some l => l.leave_type | none => "")
  let leave_posting := pyStrip (match meta with | some l => l.posting_code | none => "")
  let is_leave_block := meta.isSome
  let counter2 := if assigned != "" && !is_leave_block then counter + 1 else counter
  let posting_code_value :=
    if is_leave_block && leave_posting != "" then leave_posting else assigned
  (counter2,
   { mcr := mcr, year := year, month_block := e.month_block,
     career_block := counter2, posting_code := posting_code_value,
     is_current_year := true, is_leave := is_leave_block,
     leave_type := leave_type })

/-- The allocator's extraction of one solver entry (the `solution_entries`
loop): an off block yields an empty assignment, otherwise the first
posting whose variable is set. -/
def extractEntry (postings : List Posting) (s : Solution) (m : String) (b : Nat) :
    SolutionEntry :=
  { month_block := b
    assigned_posting :=
      if s.off m b then ""
      else
        match (postingCodes postings).find? (fun p => s.x m p b) with
        | some p => p
        | none => ""
    is_off := s.off m b }

/-- Under Hard Constraint 1, an extracted non-off entry carries a nonempty
posting code (so `compute_postprocess`'s "assigned" test coincides with
"not off and not on leave"); an off entry always carries the empty code. -/
theorem extractEntry_assigned_iff (residents : List Resident) (postings : List Posting)
    (s : Solution) (r : Resident) (b : Nat) (hr : r ∈ residents) (hb : b ∈ monthBlocks)
    (hone : exactlyOneSlotConstraint residents postings s)
    (hne : "" ∉ postingCodes postings) :
    (extractEntry postings s r.mcr b).assigned_posting = "" ↔ s.off r.mcr b = true := by
  unfold extractEntry
  rcases Bool.eq_false_or_eq_true (s.off r.mcr b) with hoff | hoff
  · rw [hoff]
    simp
  · rw [hoff]
    have hsum := hone r hr b hb
    rw [hoff] at hsum
    have hone' : assignedCount postings s r.mcr b = 1 := by
      simpa using hsum
    obtain ⟨p, hp, hxp, -⟩ := indicator_sum_eq_one _ _ hone'
    have hfind : ((postingCodes postings).find? (fun p => s.x r.mcr p b)).isSome = true := by
      rw [List.find?_isSome]
      exact ⟨p, hp, hxp⟩
    obtain ⟨q, hq⟩ := Option.isSome_iff_exists.mp hfind
    have hqmem := List.mem_of_find?_eq_some hq
    rw [hq]
    apply iff_of_false
    · intro h0
      simp only [Bool.false_eq_true, if_false] at h0
      have hq0 : q = "" := h0
      rw [hq0] at hqmem
      exact hne hqmem
    · simp

/-- C6: the per-entry fold of `compute_postprocess` — a declared-leave
month keeps the counter, records the leave's (stripped) posting code and
leave type, and flags the row as current-year leave; an off month (empty
assignment, no leave) keeps the counter and emits an empty posting code;
any other month advances the counter by one and records the advanced value
with the chosen posting. -/
theorem c6_postprocess_rows (leaveMap : String → Nat → Option LeaveMeta)
    (mcr : String) (year counter : Int) (e : SolutionEntry) :
    (∀ l, leaveMap mcr e.month_block = some l → e.assigned_posting = "" →
      (processEntry leaveMap mcr year counter e).1 = counter ∧
        (processEntry leaveMap mcr year counter e).2.career_block = counter ∧
        (processEntry leaveMap mcr year counter e).2.is_leave = true ∧
        (processEntry leaveMap mcr year counter e).2.is_current_year = true ∧
        (processEntry leaveMap mcr year counter e).2.leave_type = pyStrip l.leave_type ∧
        (processEntry leaveMap mcr year counter e).2.posting_code = pyStrip l.posting_code) ∧
    (leaveMap mcr e.month_block = none → e.assigned_posting = "" →
      (processEntry leaveMap mcr year counter e).1 = counter ∧
        (processEntry leaveMap mcr year counter e).2.career_block = counter ∧
        (processEntry leaveMap mcr year counter e).2.is_leave = false ∧
        (processEntry leaveMap mcr year counter e).2.is_current_year = true ∧
        (processEntry leaveMap mcr year counter e).2.posting_code = "") ∧
    (leaveMap mcr e.month_block = none → e.assigned_posting ≠ "" →
      (processEntry leaveMap mcr year counter e).1 = counter + 1 ∧
        (processEntry leaveMap mcr year counter e).2.career_block = counter + 1 ∧
        (processEntry leaveMap mcr year counter e).2.is_leave = false ∧
        (processEntry leaveMap mcr year counter e).2.is_current_year = true ∧
        (processEntry leaveMap mcr year counter e).2.posting_code = e.assigned_posting) := by
  refine ⟨?_, ?_, ?_⟩
  · intro l hsome hempty
    by_cases hlp : pyStrip l.posting_code = ""
    · simp [processEntry, hsome, hempty, hlp]
    · simp [processEntry, hsome, hempty, hlp]
  · intro hnone hempty
    simp [processEntry, hnone, hempty]
  · intro hnone hassigned
    simp [processEntry, hnone, hassigned]

/-- Leave map for the C6 witness: block 2 is a leave from `NL (TTSH)`. -/
def c6LeaveMap : String → Nat → Option LeaveMeta :=
  fun m b =>
    if m == "R1" && b == 2 then some { leave_type := "ML", posting_code := "NL (TTSH)" }
    else none

/-- C6 witness: the leave case at a concrete entry. -/
theorem c6_witness :
    (processEntry c6LeaveMap "R1" 1 7
        { month_block := 2, assigned_posting := "", is_off := true }).1 = 7 ∧
      (processEntry c6LeaveMap "R1" 1 7
          { month_block := 2, assigned_posting := "", is_off := true }).2.career_block = 7 ∧
      (processEntry c6LeaveMap "R1" 1 7
          { month_block := 2, assigned_posting := "", is_off := true }).2.is_leave = true ∧
      (processEntry c6LeaveMap "R1" 1 7
          { month_block := 2, assigned_posting := "", is_off := true }).2.is_current_year = true ∧
      (processEntry c6LeaveMap "R1" 1 7
          { month_block := 2, assigned_posting := "", is_off := true }).2.leave_type =
        pyStrip "ML" ∧
      (processEntry c6LeaveMap "R1" 1 7
          { month_block := 2, assigned_posting := "", is_off := true }).2.posting_code =
        pyStrip "NL (TTSH)" :=
  (c6_postprocess_rows c6LeaveMap "R1" 1 7
      { month_block := 2, assigned_posting := "", is_off := true }).1
    { leave_type := "ML", posting_code := "NL (TTSH)" } (by decide) (by decide)

/-!
## Career-block base derivation (`compute_postprocess`, lines 82–116)
-/

/-- The resident's pre-existing (non-current-year) history rows. -/
def nonCurrentRows (output_history : List HistoryRow) (m : String) : List HistoryRow :=
  output_history.filter (fun h => h.mcr == m && !h.is_current_year)

/-- `non_leave_blocks`: the career-block numbers of the resident's
non-leave historical rows. -/
def nonLeaveCareerBlocks (output_history : List HistoryRow) (m : String) : List Int :=
  ((nonCurrentRows output_history m).filter (fun h => !h.is_leave)).map
    (fun h => h.career_block)

/-- Python's `max` over a nonempty list (the `[]` case is never reached in
the guarded code). -/
def pyMax : List Int → Int
  | [] => 0
  | x :: xs => xs.foldl max x

/-- The historical part of the `base_completed` derivation: the maximum
career block of non-leave historical rows, or of all historical rows when
every historical row is a leave, or `0` with no historical rows at all. -/
def base_completed_raw (output_history : List HistoryRow) (m : String) : Int :=
  if (nonCurrentRows output_history m).isEmpty then 0
  else
    if (nonLeaveCareerBlocks output_history m).isEmpty then
      pyMax ((nonCurrentRows output_history m).map (fun h => h.career_block))
    else pyMax (nonLeaveCareerBlocks output_history m)

/-- The `base_completed` derivation: the historical maximum, with the
solver's `completed_blocks` (or, failing that, the resident's
`career_blocks_completed` metadata) as the fallback when it is zero. -/
def base_completed (output_history : List HistoryRow) (m : String)
    (solver_completed : Option Int) (resident_meta : Int) : Int :=
  if base_completed_raw output_history m = 0 then
    match solver_completed with
    | some v => v
    | none => resident_meta
  else base_completed_raw output_history m

/-- C10: whenever the maximum career block over the resident's pre-existing
non-current-year non-leave rows is positive, the numbering starts from it;
the solver/metadata fallback is taken exactly in the listed degenerate
cases, in each of which no positive non-leave historical maximum exists. -/
theorem c10_career_base (output_history : List HistoryRow) (m : String)
    (solver_completed : Option Int) (resident_meta : Int) :
    (nonLeaveCareerBlocks output_history m ≠ [] →
      0 < pyMax (nonLeaveCareerBlocks output_history m) →
      base_completed output_history m solver_completed resident_meta =
        pyMax (nonLeaveCareerBlocks output_history m)) ∧
    ((nonCurrentRows output_history m = [] ∨
        (nonLeaveCareerBlocks output_history m ≠ [] ∧
          pyMax (nonLeaveCareerBlocks output_history m) = 0) ∨
        (nonLeaveCareerBlocks output_history m = [] ∧
          nonCurrentRows output_history m ≠ [] ∧
          pyMax ((nonCurrentRows output_history m).map (fun h => h.career_block)) = 0)) →
      base_completed output_history m solver_completed resident_meta =
        solver_completed.getD resident_meta) ∧
    ((nonCurrentRows output_history m = [] ∨
        (nonLeaveCareerBlocks output_history m ≠ [] ∧
          pyMax (nonLeaveCareerBlocks output_history m) = 0) ∨
        (nonLeaveCareerBlocks output_history m = [] ∧
          nonCurrentRows output_history m ≠ [] ∧
          pyMax ((nonCurrentRows output_history m).map (fun h => h.career_block)) = 0)) →
      ¬(nonLeaveCareerBlocks output_history m ≠ [] ∧
        0 < pyMax (nonLeaveCareerBlocks output_history m))) := by
  refine ⟨?_, ?_, ?_⟩
  · intro hnl hpos
    have hhist : ¬(nonCurrentRows output_history m).isEmpty = true := by
      intro h0
      apply hnl
      have h0' : nonCurrentRows output_history m = [] := by
        simpa [List.isEmpty_iff] using h0
      simp [nonLeaveCareerBlocks, h0']
    have hnl' : ¬(nonLeaveCareerBlocks output_history m).isEmpty = true := by
      intro h0
      exact hnl (by simpa [List.isEmpty_iff] using h0)
    have hraw : base_completed_raw output_history m =
        pyMax (nonLeaveCareerBlocks output_history m) := by
      unfold base_completed_raw
      rw [if_neg hhist, if_neg hnl']
    unfold base_completed
    rw [hraw, if_neg (by omega)]
  · have hfall : base_completed_raw output_history m = 0 →
        base_completed output_history m solver_completed resident_meta =
          solver_completed.getD resident_meta := by
      intro hz
      unfold base_completed
      rw [if_pos hz]
      cases solver_completed <;> rfl
    rintro (h0 | ⟨hnl, hzero⟩ | ⟨hnl, hne, hzero⟩)
    · apply hfall
      unfold base_completed_raw
      rw [if_pos (by simpa [List.isEmpty_iff] using h0)]
    · apply hfall
      have hhist : ¬(nonCurrentRows output_history m).isEmpty = true := by
        intro h0
        apply hnl
        have h0' : nonCurrentRows output_history m = [] := by
          simpa [List.isEmpty_iff] using h0
        simp [nonLeaveCareerBlocks, h0']
      have hnl' : ¬(nonLeaveCareerBlocks output_history m).isEmpty = true := by
        intro h0
        exact hnl (by simpa [List.isEmpty_iff] using h0)
      unfold base_completed_raw
      rw [if_neg hhist, if_neg hnl']
      exact hzero
    · apply hfall
      unfold base_completed_raw
      rw [if_neg (by simpa [List.isEmpty_iff] using hne),
        if_pos (by simpa [List.isEmpty_iff] using hnl)]
      exact hzero
  · rintro (h0 | ⟨-, hzero⟩ | ⟨hnl, -, -⟩) ⟨hne, hpos⟩
    · exact hne (by simp [nonLeaveCareerBlocks, h0])
    · omega
    · exact hne hnl

/-- History for the C10 witness: one non-leave historical row with career
block 17 and one leave row with a larger number. -/
def c10History : List HistoryRow :=
  [{ mcr := "R9", year := 2, month_block := 3, career_block := 17,
     posting_code := "GM (TTSH)", is_current_year := false,
     is_leave := false, leave_type := "" },
   { mcr := "R9", year := 2, month_block := 4, career_block := 30,
     posting_code := "", is_current_year := false,
     is_leave := true, leave_type := "AL" }]

/-- C10 witness: the positive non-leave historical maximum (17) wins over
both the solver value and the metadata. -/
theorem c10_witness :
    base_completed c10History "R9" (some 5) 3 =
      pyMax (nonLeaveCareerBlocks c10History "R9") :=
  (c10_career_base c10History "R9" (some 5) 3).1 (by decide) (by decide)

/-!
## Solve protocol (`allocate_timetable` signature and solver settings,
`main.py`'s `/api/solve`, `preprocessing.parse_max_time_in_minutes`)
-/

/-- The parameter names of
`services/posting_allocator.allocate_timetable` (lines 26–35). -/
def allocate_timetable_params : List String :=
  ["residents", "resident_history", "resident_preferences",
   "resident_sr_preferences", "postings", "weightages", "resident_leaves",
   "pinned_assignments"]

/-- The keyword arguments `main.py`'s `/api/solve` handler passes to
`allocate_timetable` (lines 82–92). -/
def solve_call_kwargs : List String :=
  ["residents", "resident_history", "resident_preferences",
   "resident_sr_preferences", "postings", "weightages", "resident_leaves",
   "pinned_assignments", "max_time_in_minutes"]

/-- `solver.parameters.max_time_in_seconds = 60 * 15` — the wall-clock
limit set before every solve, with no input consulted. -/
def solver_max_time_in_seconds : Nat := 60 * 15

/-- `preprocessing.parse_max_time_in_minutes` on an already-parsed integer
(`parse_int` result): positive values pass through, everything else is
`None`. -/
def parse_max_time_in_minutes (raw : Option Int) : Option Int :=
  match raw with
  | none => none
  | some value => if value ≤ 0 then none else some value

/-- C4 (code bug): the preprocessing layer parses an optional positive
`max_time_in_minutes` and `main.py` forwards it as a keyword argument, but
`allocate_timetable` accepts no such parameter — the call raises
`TypeError` — and the solver limit is hard-coded to 900 seconds
(15 minutes) independent of any input. -/
theorem c4_max_time :
    "max_time_in_minutes" ∈ solve_call_kwargs ∧
      "max_time_in_minutes" ∉ allocate_timetable_params ∧
      solver_max_time_in_seconds = 15 * 60 ∧
      parse_max_time_in_minutes (some 10) = some 10 ∧
      parse_max_time_in_minutes (some 0) = none ∧
      parse_max_time_in_minutes none = none := by
  refine ⟨by decide, by decide, by decide, by decide, by decide, by decide⟩

/-!
## Cohort statistics (`compute_postprocess`, lines 292–323)

The `cohort_statistics` dict literal and the result dict literal have
statically known keys; we record them as the key lists the function
returns on every successful call.
-/

/-- The keys of the `cohort_statistics` dict built at lines 292–297 of
`services/postprocess.py`. -/
def cohort_statistics_keys : List String :=
  ["optimisation_scores", "optimisation_scores_normalised", "posting_util"]

/-- The keys of the `statistics` entry of the result dict
(lines 316–319). -/
def statistics_keys : List String :=
  ["total_residents", "cohort"]

/-- The keys of the success result dict returned at lines 307–323. -/
def postprocess_result_keys : List String :=
  ["success", "residents", "resident_history", "resident_preferences",
   "resident_sr_preferences", "postings", "resident_leaves", "weightages",
   "statistics", "diagnostics"]

/-- C5 counterexample: the cohort statistics of a successful solve carry
no `elective_preference_satisfaction` entry — the key is absent from the
dict literal the postprocess builds, on every input. -/
theorem c5_counterexample :
    "elective_preference_satisfaction" ∉ cohort_statistics_keys ∧
      "statistics" ∈ postprocess_result_keys ∧
      "cohort" ∈ statistics_keys := by
  refine ⟨by decide, by decide, by decide⟩

/-- C5 (amended): on every successful solve the output's
`statistics.cohort` mapping contains exactly `optimisation_scores`,
`optimisation_scores_normalised` and `posting_util`; no elective
preference satisfaction histogram is computed anywhere in the pipeline. -/
theorem c5_cohort_statistics :
    cohort_statistics_keys =
        ["optimisation_scores", "optimisation_scores_normalised", "posting_util"] ∧
      statistics_keys = ["total_residents", "cohort"] ∧
      "elective_preference_satisfaction" ∉ cohort_statistics_keys ∧
      "elective_preference_satisfaction" ∉ statistics_keys ∧
      "elective_preference_satisfaction" ∉ postprocess_result_keys := by
  refine ⟨rfl, rfl, by decide, by decide, by decide⟩

end TimetableOptimiser
